import Mathlib

/-!
Verification development for the Memento Database scripting surface
declared by this repository (TypeScript ambient declarations under
src/types/memento plus example scripts).  The repository contains only
interface declarations: every behavioral contract lives in the
declaration doc comments and the specification, with the implementation
residing in the external host application.  Consequently the behavioral
definitions below are modelled from the spec, while all data shapes
(Entry and Library attributes, field kinds, builder configurations)
follow the declaration files.
-/

namespace Memento

/-- Image object of an Image field, following JSImage in
src/types/memento/fields.d.ts: uri path, caption, position index. -/
structure JSImage where
  uri : String
  caption : String
  index : Nat
deriving Repr, DecidableEq

/-- Kinds of library fields, following the return-type enumeration of
Entry.field in src/types/memento/entries/entry.d.ts: text, number, date,
time, checkbox, multiple-choice, link-to-entry, link-to-file, image. -/
inductive FieldKind where
  | text
  | number
  | date
  | time
  | checkbox
  | choices
  | links
  | files
  | images
deriving Repr, DecidableEq

/-- A field value, carrying the payload shape that Entry.field declares
for each kind: string for text, number for number fields (the numeric
payload is represented by Int), ISO-format date string, HH:mm time
string, boolean for checkbox, array of strings for multiple-choice,
array of linked Entry objects for Link to Entry (represented by the
identifiers of the linked entries), array of file path strings for Link
to File, and array of image objects for Image fields. -/
inductive FieldValue where
  | text (s : String)
  | number (n : Int)
  | date (iso : String)
  | time (hhmm : String)
  | checkbox (b : Bool)
  | choices (items : List String)
  | links (entryIds : List String)
  | files (paths : List String)
  | images (imgs : List JSImage)
deriving Repr, DecidableEq

/-- The kind a stored value belongs to. -/
def FieldValue.kind : FieldValue → FieldKind
  | .text _ => .text
  | .number _ => .number
  | .date _ => .date
  | .time _ => .time
  | .checkbox _ => .checkbox
  | .choices _ => .choices
  | .links _ => .links
  | .files _ => .files
  | .images _ => .images

/-- An entry of a library, following the Entry object of
src/types/memento/entries/entry.d.ts: scalar attributes (author,
creationTime, deleted, description, favorites, id, lastModifiedTime,
name) plus the open-ended mapping from field name to typed value.
Timestamps are represented as natural numbers so that creation-time
ordering is expressible. -/
structure Entry where
  id : String
  author : String
  creationTime : Nat
  deleted : Bool
  description : String
  favorites : Bool
  lastModifiedTime : Nat
  name : String
  fields : List (String × FieldValue)
deriving Repr, DecidableEq

/-- Entry name alias, following the title attribute of entry.d.ts. -/
def Entry.title (e : Entry) : String := e.name

/-- Update an association list at a key, replacing the first binding or
appending a fresh one; auxiliary for Entry.set. -/
def updateField : List (String × FieldValue) → String → FieldValue →
    List (String × FieldValue)
  | [], k, v => [(k, v)]
  | (k', w) :: rest, k, v =>
      if k' = k then (k, v) :: rest else (k', w) :: updateField rest k v

/-- Modelled from the spec: Entry.field returns the value of the named
field in its appropriate type (entry.d.ts); the host implementation is
outside the repository.  Lookup of the field name in the entry's
field mapping, none when the entry has no such field. -/
def Entry.field (e : Entry) (k : String) : Option FieldValue :=
  (e.fields.find? (fun p => p.1 = k)).map Prod.snd

/-- Modelled from the spec: Entry.set updates the value of the named
field (entry.d.ts); the host implementation is outside the repository. -/
def Entry.set (e : Entry) (k : String) (v : FieldValue) : Entry :=
  { e with fields := updateField e.fields k v }

/-- Modelled from the spec: Entry.trash moves the entry to the Recycle
Bin, i.e. marks it deleted (entry.d.ts deleted attribute: true if the
entry is in the Recycle Bin). -/
def Entry.trash (e : Entry) : Entry := { e with deleted := true }

/-- Modelled from the spec: Entry.untrash restores the entry from the
Recycle Bin, clearing the deleted mark. -/
def Entry.untrash (e : Entry) : Entry := { e with deleted := false }

/-- Modelled from the spec: Entry.link adds a link to another entry in a
Link to Entry field; a no-op when the named field is not a link field. -/
def Entry.link (e : Entry) (k : String) (targetId : String) : Entry :=
  match e.field k with
  | some (.links ids) => e.set k (.links (ids ++ [targetId]))
  | _ => e

/-- Modelled from the spec: Entry.unlink removes a link to another entry
from a Link to Entry field; a no-op when the named field is not a link
field. -/
def Entry.unlink (e : Entry) (k : String) (targetId : String) : Entry :=
  match e.field k with
  | some (.links ids) => e.set k (.links (ids.filter (fun i => i ≠ targetId)))
  | _ => e

/-- Modelled from the spec: Entry.values returns the values of all
fields of the entry as one mapping. -/
def Entry.values (e : Entry) : List (String × FieldValue) := e.fields

/-- A library, following the Library object of src/unnamed/part_001:
name, id, notes, and the set of entries it owns (represented as a list
in arbitrary storage order). -/
structure Library where
  name : String
  id : String
  notes : String
  entryList : List Entry
deriving Repr, DecidableEq

/-- Library title alias, following the title attribute of the Library
declaration. -/
def Library.title (l : Library) : String := l.name

/-- Modelled from the spec: Library.create constructs and persists a new
Entry synchronously from a name-to-value mapping (part_001 create).  The
host supplies the fresh entry id, the author and the creation timestamp;
the new entry starts outside the Recycle Bin and carries exactly the
given field values.  Returns the updated library together with the newly
created entry. -/
def Library.create (l : Library) (newId author : String) (now : Nat)
    (values : List (String × FieldValue)) : Library × Entry :=
  let e : Entry :=
    { id := newId
      author := author
      creationTime := now
      deleted := false
      description := ""
      favorites := false
      lastModifiedTime := now
      name := ""
      fields := values }
  ({ l with entryList := e :: l.entryList }, e)

/-- Insert an entry into a list that is ordered by creation time newest
first, keeping the order; auxiliary for Library.entries. -/
def insertByNewest (e : Entry) : List Entry → List Entry
  | [] => [e]
  | x :: xs =>
      if x.creationTime ≤ e.creationTime then e :: x :: xs
      else x :: insertByNewest e xs

/-- Sort entries by creation time, newest first. -/
def sortByNewest : List Entry → List Entry
  | [] => []
  | x :: xs => insertByNewest x (sortByNewest xs)

/-- Modelled from the spec: Library.entries returns all entries sorted
by creation time, newest first (part_001 entries). -/
def Library.entries (l : Library) : List Entry := sortByNewest l.entryList

/-- Modelled from the spec: Library.lastEntry returns the most recently
created entry, or null if the library is empty (part_001 lastEntry). -/
def Library.lastEntry (l : Library) : Option Entry := l.entries.head?

/-- Modelled from the spec: Library.firstEntry returns the oldest entry,
or null if the library is empty (part_001 firstEntry). -/
def Library.firstEntry (l : Library) : Option Entry := l.entries.getLast?

/-- A library as registered with the host, together with the security
permission flag that the libByName and libById doc comments describe:
returns null if the library is not found or permissions are
insufficient. -/
structure LibraryRecord where
  library : Library
  accessible : Bool
deriving Repr, DecidableEq

/-- The host context a script runs in: the library of the current event
and all registered libraries. -/
structure Host where
  current : Library
  records : List LibraryRecord
deriving Repr, DecidableEq

/-- Modelled from the spec: lib returns the Library object of the
current event (src/types/memento/libraries/index.d.ts). -/
def lib (h : Host) : Library := h.current

/-- Modelled from the spec: libByName finds a library by its name and
returns null if the library is not found or permissions are insufficient
(src/types/memento/libraries/index.d.ts, src/unnamed/part_001). -/
def libByName (h : Host) (name : String) : Option Library :=
  match h.records.find? (fun r => r.library.name = name) with
  | some r => if r.accessible then some r.library else none
  | none => none

/-- Modelled from the spec: libById finds a library by its id and
returns null if the library is not found or permissions are insufficient
(src/types/memento/libraries/index.d.ts, src/unnamed/part_001). -/
def libById (h : Host) (id : String) : Option Library :=
  match h.records.find? (fun r => r.library.id = id) with
  | some r => if r.accessible then some r.library else none
  | none => none

/-- A library field schema: the declared kind of every field name. -/
def FieldSchema : Type := List (String × FieldKind)

/-- An entry conforms to a schema when every stored field value has the
kind the schema declares for its name.  This is the host-enforced
condition the spec states as: type must match field definition. -/
def WellTypedEntry (schema : FieldSchema) (e : Entry) : Prop :=
  ∀ p ∈ e.fields, List.lookup p.1 schema = some p.2.kind

instance (schema : FieldSchema) (e : Entry) :
    Decidable (WellTypedEntry schema e) := by
  unfold WellTypedEntry; infer_instance

/-- The entry mutations the API exposes: set, link, unlink, trash,
untrash (entry.d.ts). -/
inductive EntryOp where
  | set (k : String) (v : FieldValue)
  | link (k : String) (targetId : String)
  | unlink (k : String) (targetId : String)
  | trash
  | untrash
deriving Repr, DecidableEq

/-- Apply an entry mutation. -/
def applyEntryOp : EntryOp → Entry → Entry
  | .set k v, e => e.set k v
  | .link k t, e => e.link k t
  | .unlink k t, e => e.unlink k t
  | .trash, e => e.trash
  | .untrash, e => e.untrash

/-- The library-level operations in scope: creating an entry, or
mutating one existing entry in place. -/
inductive LibOp where
  | create (newId author : String) (now : Nat)
      (values : List (String × FieldValue))
  | onEntry (entryId : String) (op : EntryOp)
deriving Repr, DecidableEq

/-- Modelled from the spec: the effect of each in-scope API operation on
a library's entry set.  Entries are created by Library.create and
mutated in place; no operation removes an entry from the set
(soft deletion only marks the deleted attribute). -/
def applyLibOp : LibOp → Library → Library
  | .create newId author now values, l =>
      (l.create newId author now values).1
  | .onEntry entryId op, l =>
      { l with
        entryList :=
          l.entryList.map (fun e =>
            if e.id = entryId then applyEntryOp op e else e) }

/-- The ids of the entries a library owns. -/
def Library.entryIds (l : Library) : List String := l.entryList.map Entry.id

/-- Stacking direction of a layout element (ui.d.ts UILayout): children
are arranged vertically by default, horizontally after horizontal(). -/
inductive Tilt where
  | vertical
  | horizontal
deriving Repr, DecidableEq

/-- Width or height setting of a UI element (ui.d.ts UIBase): pixels,
match parent, wrap content, or left unset. -/
inductive SizeSpec where
  | px (n : Nat)
  | matchParent
  | wrapContent
  | unset
deriving Repr, DecidableEq

/-- A node of the UI element tree (ui.d.ts UIBuilder factory methods):
text, button, edit, checkbox, choiceBox, image; layoutNode and pages are
the two node forms with children. -/
inductive UINode where
  | text (s : String)
  | button (title : String)
  | edit (txt : String)
  | checkbox (title : String) (value : Bool)
  | choiceBox (selected : Nat) (items : List String)
  | image (url : String)
  | layoutNode (children : List UINode) (tilt : Tilt)
  | pages (children : List UINode)
deriving Repr

/-- The layout element built by ui().layout(children) (ui.d.ts
UILayout): its child list, its orientation flag, and the UIBase display
attributes width, height, weight and tag. -/
structure UILayout where
  children : List UINode
  tilt : Tilt
  width : SizeSpec
  height : SizeSpec
  weight : Option Int
  tag : Option String
deriving Repr

/-- Modelled from the spec: ui().layout(children) groups the given UI
objects, arranging them vertically in a single column by default
(ui.d.ts: by default, the layout object arranges its children
vertically); no display attribute is set initially. -/
def UIBuilder.layout (children : List UINode) : UILayout :=
  { children := children
    tilt := .vertical
    width := .unset
    height := .unset
    weight := none
    tag := none }

/-- Modelled from the spec: UILayout.horizontal displays the children
horizontally (ui.d.ts UILayout.horizontal), a one-bit orientation flag. -/
def UILayout.horizontal (l : UILayout) : UILayout :=
  { l with tilt := .horizontal }

/-- Modelled from the spec: the UIBase width setter on a layout. -/
def UILayout.setWidth (l : UILayout) (w : Nat) : UILayout :=
  { l with width := .px w }

/-- Modelled from the spec: the UIBase height setter on a layout. -/
def UILayout.setHeight (l : UILayout) (h : Nat) : UILayout :=
  { l with height := .px h }

/-- Modelled from the spec: the UIBase weight setter on a layout. -/
def UILayout.setWeight (l : UILayout) (w : Int) : UILayout :=
  { l with weight := some w }

/-- Modelled from the spec: the UIBase tag setter on a layout. -/
def UILayout.setTag (l : UILayout) (t : String) : UILayout :=
  { l with tag := some t }

/-- The three dialog button slots (dialog.d.ts positiveButton,
negativeButton, neutralButton). -/
inductive ButtonKind where
  | positive
  | negative
  | neutral
deriving Repr, DecidableEq

/-- A configured dialog button: its label, the identifier of the
registered callback, and the boolean value the callback returns to the
host (callbacks are modelled as pure observations: an identity recorded
on invocation plus the returned flag). -/
structure DialogButton where
  label : String
  cb : Nat
  ret : Bool
deriving Repr, DecidableEq

/-- The accumulated configuration of a dialog builder (dialog.d.ts):
title, text, custom view, up to three buttons, and the autoDismiss
flag (dialogs automatically close after a button click by default). -/
structure DialogConfig where
  title : Option String
  text : Option String
  view : Option UILayout
  positive : Option DialogButton
  negative : Option DialogButton
  neutral : Option DialogButton
  autoDismiss : Bool
deriving Repr

/-- Modelled from the spec: dialog() creates a fresh dialog builder with
nothing configured and autoDismiss on by default
(src/unnamed/part_003 dialog, dialog.d.ts autoDismiss). -/
def dialog : DialogConfig :=
  { title := none
    text := none
    view := none
    positive := none
    negative := none
    neutral := none
    autoDismiss := true }

/-- Modelled from the spec: Dialog.title sets the dialog title. -/
def DialogConfig.setTitle (c : DialogConfig) (s : String) : DialogConfig :=
  { c with title := some s }

/-- Modelled from the spec: Dialog.text sets the main content text. -/
def DialogConfig.setText (c : DialogConfig) (s : String) : DialogConfig :=
  { c with text := some s }

/-- Modelled from the spec: Dialog.view sets a custom view. -/
def DialogConfig.setView (c : DialogConfig) (v : UILayout) : DialogConfig :=
  { c with view := some v }

/-- Modelled from the spec: Dialog.positiveButton adds a positive action
button with its callback. -/
def DialogConfig.positiveButton (c : DialogConfig) (b : DialogButton) :
    DialogConfig :=
  { c with positive := some b }

/-- Modelled from the spec: Dialog.negativeButton adds a negative action
button with its callback. -/
def DialogConfig.negativeButton (c : DialogConfig) (b : DialogButton) :
    DialogConfig :=
  { c with negative := some b }

/-- Modelled from the spec: Dialog.neutralButton adds a neutral action
button with its callback. -/
def DialogConfig.neutralButton (c : DialogConfig) (b : DialogButton) :
    DialogConfig :=
  { c with neutral := some b }

/-- Modelled from the spec: Dialog.autoDismiss controls whether the
dialog automatically closes after a button click; if false it only
closes when the callback returns true. -/
def DialogConfig.setAutoDismiss (c : DialogConfig) (b : Bool) : DialogConfig :=
  { c with autoDismiss := b }

/-- The button registered in a given slot of a dialog configuration. -/
def DialogConfig.buttonFor (c : DialogConfig) : ButtonKind → Option DialogButton
  | .positive => c.positive
  | .negative => c.negative
  | .neutral => c.neutral

/-- A user interaction the host can deliver to a shown dialog: a click
on one of the button slots, or an outside dismissal request. -/
inductive UIEvent where
  | click (k : ButtonKind)
  | dismissRequest
deriving Repr, DecidableEq

/-- Modelled from the spec: the host's handling of interactions with a
shown dialog.  A click on a configured button invokes its callback once;
the dialog then closes if autoDismiss is on or the callback returned
true, otherwise it stays open.  A dismissal request closes the dialog
without invoking anything; a click on a slot with no button does
nothing.  Returns the identities of the callbacks invoked, in order. -/
def runOpenDialog (c : DialogConfig) : List UIEvent → List Nat
  | [] => []
  | .dismissRequest :: _ => []
  | .click k :: rest =>
      match c.buttonFor k with
      | none => runOpenDialog c rest
      | some b =>
          if c.autoDismiss || b.ret then [b.cb]
          else b.cb :: runOpenDialog c rest

/-- Whether the positive button's UI action fires on an interaction
sequence: some positive click reaches the dialog while it is still open,
i.e. before any dismissal request (for a dialog whose only button is the
positive one, other clicks hit empty slots and change nothing). -/
def positiveActionFires : List UIEvent → Bool
  | [] => false
  | .dismissRequest :: _ => false
  | .click .positive :: _ => true
  | .click _ :: rest => positiveActionFires rest

/-- The accumulated configuration of a notification builder
(notification.d.ts): id, title, text, bigText, small and large icons,
and the alertOnce flag. -/
structure NotificationConfig where
  id : Option Int
  title : Option String
  text : Option String
  bigText : Option String
  smallIcon : Option String
  largeIcon : Option String
  alertOnce : Bool
deriving Repr, DecidableEq

/-- Modelled from the spec: notification() creates a fresh notification
builder with nothing configured (src/unnamed/part_003). -/
def notificationBuilder : NotificationConfig :=
  { id := none
    title := none
    text := none
    bigText := none
    smallIcon := none
    largeIcon := none
    alertOnce := false }

/-- The chained setter calls of the Dialog builder (dialog.d.ts):
title, text, view, the three buttons, autoDismiss. -/
inductive DialogSetter where
  | title (s : String)
  | text (s : String)
  | view (v : UILayout)
  | positiveButton (b : DialogButton)
  | negativeButton (b : DialogButton)
  | neutralButton (b : DialogButton)
  | autoDismiss (b : Bool)
deriving Repr

/-- Apply one dialog setter to the builder state. -/
def applyDialogSetter (c : DialogConfig) : DialogSetter → DialogConfig
  | .title s => c.setTitle s
  | .text s => c.setText s
  | .view v => c.setView v
  | .positiveButton b => c.positiveButton b
  | .negativeButton b => c.negativeButton b
  | .neutralButton b => c.neutralButton b
  | .autoDismiss b => c.setAutoDismiss b

/-- The chained setter calls of the Notification builder
(notification.d.ts): id, title, text, bigText, icons, alertOnce. -/
inductive NotificationSetter where
  | id (v : Int)
  | title (s : String)
  | text (s : String)
  | bigText (s : String)
  | smallIcon (s : String)
  | largeIcon (s : String)
  | alertOnce
deriving Repr, DecidableEq

/-- Apply one notification setter to the builder state. -/
def applyNotificationSetter (c : NotificationConfig) :
    NotificationSetter → NotificationConfig
  | .id v => { c with id := some v }
  | .title s => { c with title := some s }
  | .text s => { c with text := some s }
  | .bigText s => { c with bigText := some s }
  | .smallIcon s => { c with smallIcon := some s }
  | .largeIcon s => { c with largeIcon := some s }
  | .alertOnce => { c with alertOnce := true }

/-- An effect a builder can make visible to the host application:
showing a fully configured dialog, or showing a fully configured
notification. -/
inductive HostEffect where
  | showDialog (c : DialogConfig)
  | showNotification (c : NotificationConfig)
deriving Repr

/-- One step of a script interacting with a dialog builder: either a
chained setter call or the terminal show() call. -/
inductive DialogStep where
  | setter (s : DialogSetter)
  | show
deriving Repr

/-- One step of a script interacting with a notification builder:
either a chained setter call or the terminal show() call. -/
inductive NotificationStep where
  | setter (s : NotificationSetter)
  | show
deriving Repr

/-- Modelled from the spec: execution of a sequence of dialog builder
steps from a builder state.  Setter calls only transform the builder
state and emit no host effect; show() emits a single host effect
carrying the whole configuration accumulated so far.  Returns the final
builder state and the host effects emitted, in order. -/
def runDialogSteps : DialogConfig → List DialogStep →
    DialogConfig × List HostEffect
  | c, [] => (c, [])
  | c, .setter s :: rest => runDialogSteps (applyDialogSetter c s) rest
  | c, .show :: rest =>
      let (c', effs) := runDialogSteps c rest
      (c', .showDialog c :: effs)

/-- Modelled from the spec: execution of a sequence of notification
builder steps from a builder state; setters emit no host effect, show()
emits a single effect carrying the accumulated configuration. -/
def runNotificationSteps : NotificationConfig → List NotificationStep →
    NotificationConfig × List HostEffect
  | c, [] => (c, [])
  | c, .setter s :: rest =>
      runNotificationSteps (applyNotificationSetter c s) rest
  | c, .show :: rest =>
      let (c', effs) := runNotificationSteps c rest
      (c', .showNotification c :: effs)

/-- An entry-editing event session: the entry as stored by the host and
the working clone that entry() hands to the script
(src/types/memento/entries/index.d.ts: entry() returns a clone of the
actual Entry object). -/
structure EditSession where
  stored : Entry
  clone : Entry
deriving Repr, DecidableEq

/-- Modelled from the spec: opening an entry-editing event clones the
stored entry; entry() returns that clone. -/
def beginEdit (e : Entry) : EditSession := { stored := e, clone := e }

/-- Modelled from the spec: entry() returns the working clone of the
current event's entry. -/
def EditSession.entry (s : EditSession) : Entry := s.clone

/-- Modelled from the spec: a set call on the entry returned by entry()
updates the working clone; the stored entry is untouched until saving. -/
def EditSession.setField (s : EditSession) (k : String) (v : FieldValue) :
    EditSession :=
  { s with clone := s.clone.set k v }

/-- Apply a list of set calls to the session's clone. -/
def applyEdits (s : EditSession) : List (String × FieldValue) → EditSession
  | [] => s
  | (k, v) :: rest => applyEdits (s.setField k v) rest

/-- Modelled from the spec: if the entry is saved, the clone becomes the
actual entry (entries/index.d.ts). -/
def EditSession.save (s : EditSession) : Entry := s.clone

/-- Modelled from the spec: if cancel() is called, the clone and any
changes are discarded and the stored entry stands unchanged
(entries/index.d.ts, src/types/memento/system/index.d.ts cancel). -/
def EditSession.cancel (s : EditSession) : Entry := s.stored

/-- A sample empty library used to instantiate universally quantified
statements at concrete inputs. -/
def sampleLibrary : Library :=
  { name := "Tasks", id := "L1", notes := "", entryList := [] }

/-- A sample entry used to instantiate universally quantified statements
at concrete inputs. -/
def sampleEntry : Entry :=
  { id := "e1"
    author := "u1"
    creationTime := 10
    deleted := false
    description := ""
    favorites := false
    lastModifiedTime := 10
    name := "Task"
    fields := [("Title", .text "Review"), ("Quantity", .number 42)] }

/-- A sample schema declaring the kinds of sampleEntry's fields. -/
def sampleSchema : FieldSchema :=
  [("Title", FieldKind.text), ("Quantity", FieldKind.number)]

/-- A sample host context: one accessible registered library, which is
also the current one; no library is named nonexistent. -/
def sampleHost : Host :=
  { current := sampleLibrary
    records := [{ library := sampleLibrary, accessible := true }] }

/-- A sample library owning one entry, used to instantiate the
soft-deletion invariant at a concrete input. -/
def sampleLibraryWithEntry : Library :=
  { name := "Tasks", id := "L1", notes := "", entryList := [sampleEntry] }

theorem field_find_eq_lookup (fs : List (String × FieldValue)) (k : String) :
    (fs.find? (fun p => p.1 = k)).map Prod.snd = fs.lookup k := by
  induction fs with
  | nil => rfl
  | cons p rest ih =>
      by_cases h : p.1 = k
      · simp [List.find?, List.lookup, h]
      · have h' : ¬(k == p.1) = true := by
          simpa [beq_iff_eq] using fun hk => h hk.symm
        simp [List.find?, List.lookup, h, h', ih]

theorem field_set_self (e : Entry) (k : String) (v : FieldValue) :
    (e.set k v).field k = some v := by
  show ((updateField e.fields k v).find? (fun p => p.1 = k)).map Prod.snd
      = some v
  induction e.fields with
  | nil => simp [updateField, List.find?]
  | cons p rest ih =>
      by_cases h : p.1 = k
      · simp [updateField, h, List.find?]
      · simpa [updateField, h, List.find?] using ih

theorem field_set_other (e : Entry) (k k' : String) (v : FieldValue)
    (h : k' ≠ k) : (e.set k v).field k' = e.field k' := by
  have hkk : k ≠ k' := Ne.symm h
  show ((updateField e.fields k v).find? (fun p => p.1 = k')).map Prod.snd
      = (e.fields.find? (fun p => p.1 = k')).map Prod.snd
  induction e.fields with
  | nil => simp [updateField, List.find?, hkk]
  | cons p rest ih =>
      obtain ⟨k0, w⟩ := p
      by_cases hp : k0 = k
      · subst hp
        simp [updateField, List.find?, hkk]
      · by_cases hp' : k0 = k'
        · simp [updateField, hp, List.find?, hp', h]
        · simpa [updateField, hp, List.find?, hp'] using ih

/-- C1: for every value mapping passed to Library.create, the entry
returned by lib().create(values) satisfies the round-trip: for every key
k present in values, calling field(k) on the returned entry yields
exactly values[k]. -/
theorem create_field_roundtrip (l : Library) (newId author : String)
    (now : Nat) (values : List (String × FieldValue)) (k : String)
    (v : FieldValue) (h : values.lookup k = some v) :
    ((l.create newId author now values).2).field k = some v := by
  show (values.find? (fun p => p.1 = k)).map Prod.snd = some v
  rw [field_find_eq_lookup, h]

theorem create_field_roundtrip_witness :
    ([(("Title" : String), FieldValue.text "Review")].lookup "Title"
        = some (FieldValue.text "Review")) ∧
    ((sampleLibrary.create "e9" "u1" 7
        [("Title", FieldValue.text "Review")]).2).field "Title"
      = some (FieldValue.text "Review") :=
  ⟨by decide,
   create_field_roundtrip sampleLibrary "e9" "u1" 7
     [("Title", FieldValue.text "Review")] "Title"
     (FieldValue.text "Review") (by decide)⟩

theorem insertByNewest_perm (e : Entry) : ∀ xs : List Entry,
    (insertByNewest e xs).Perm (e :: xs)
  | [] => List.Perm.refl _
  | x :: xs => by
      unfold insertByNewest
      by_cases h : x.creationTime ≤ e.creationTime
      · rw [if_pos h]
      · rw [if_neg h]
        exact ((insertByNewest_perm e xs).cons x).trans (List.Perm.swap e x xs)

theorem sortByNewest_perm : ∀ xs : List Entry, (sortByNewest xs).Perm xs
  | [] => List.Perm.refl _
  | x :: xs =>
      (insertByNewest_perm x (sortByNewest xs)).trans
        ((sortByNewest_perm xs).cons x)

theorem insertByNewest_sorted (e : Entry) : ∀ xs : List Entry,
    xs.Pairwise (fun a b => b.creationTime ≤ a.creationTime) →
    (insertByNewest e xs).Pairwise (fun a b => b.creationTime ≤ a.creationTime)
  | [], _ => by simp [insertByNewest]
  | x :: xs, h => by
      rw [List.pairwise_cons] at h
      obtain ⟨hx, hxs⟩ := h
      unfold insertByNewest
      by_cases hle : x.creationTime ≤ e.creationTime
      · rw [if_pos hle]
        refine List.Pairwise.cons ?_ (List.Pairwise.cons hx hxs)
        intro b hb
        rcases List.mem_cons.mp hb with rfl | hb
        · exact hle
        · exact le_trans (hx b hb) hle
      · rw [if_neg hle]
        refine List.Pairwise.cons ?_ (insertByNewest_sorted e xs hxs)
        intro b hb
        have hb' := (insertByNewest_perm e xs).mem_iff.mp hb
        rcases List.mem_cons.mp hb' with rfl | hb'
        · exact le_of_not_le hle
        · exact hx b hb'

theorem sortByNewest_sorted : ∀ xs : List Entry,
    (sortByNewest xs).Pairwise (fun a b => b.creationTime ≤ a.creationTime)
  | [] => List.Pairwise.nil
  | x :: xs => insertByNewest_sorted x (sortByNewest xs) (sortByNewest_sorted xs)

theorem head_of_sorted_is_max (xs : List Entry)
    (hs : xs.Pairwise (fun a b => b.creationTime ≤ a.creationTime))
    (e : Entry) (h : xs.head? = some e) :
    ∀ x ∈ xs, x.creationTime ≤ e.creationTime := by
  cases xs with
  | nil => cases h
  | cons a l =>
      have : a = e := by simpa using h
      subst this
      rw [List.pairwise_cons] at hs
      intro x hx
      rcases List.mem_cons.mp hx with rfl | hx
      · exact le_refl _
      · exact hs.1 x hx

theorem getLast_of_sorted_is_min (xs : List Entry)
    (hs : xs.Pairwise (fun a b => b.creationTime ≤ a.creationTime))
    (e : Entry) (h : xs.getLast? = some e) :
    ∀ x ∈ xs, e.creationTime ≤ x.creationTime := by
  have hrev : xs.reverse.head? = some e := by
    rw [List.head?_reverse]; exact h
  have hs' : xs.reverse.Pairwise
      (fun a b => a.creationTime ≤ b.creationTime) := by
    rw [List.pairwise_reverse]; exact hs
  intro x hx
  have hx' : x ∈ xs.reverse := List.mem_reverse.mpr hx
  cases hxs : xs.reverse with
  | nil => rw [hxs] at hx'; cases hx'
  | cons a l =>
      rw [hxs] at hrev hs' hx'
      have : a = e := by simpa using hrev
      subst this
      rw [List.pairwise_cons] at hs'
      rcases List.mem_cons.mp hx' with rfl | hx'
      · exact le_refl _
      · exact hs'.1 x hx'

/-- C4: for every library, entries() returns all of its entries sorted
by creation time with the newest first; lastEntry() returns the most
recently created entry, firstEntry() returns the oldest entry, and each
returns null exactly when the library is empty. -/
theorem entries_ordering (l : Library) :
    (l.entries).Perm l.entryList ∧
    (l.entries).Pairwise (fun a b => b.creationTime ≤ a.creationTime) ∧
    (l.lastEntry = none ↔ l.entryList = []) ∧
    (l.firstEntry = none ↔ l.entryList = []) ∧
    (∀ e, l.lastEntry = some e → e ∈ l.entryList ∧
        ∀ x ∈ l.entryList, x.creationTime ≤ e.creationTime) ∧
    (∀ e, l.firstEntry = some e → e ∈ l.entryList ∧
        ∀ x ∈ l.entryList, e.creationTime ≤ x.creationTime) := by
  have hperm : (l.entries).Perm l.entryList := sortByNewest_perm l.entryList
  have hsorted := sortByNewest_sorted l.entryList
  have hnil : l.entries = [] ↔ l.entryList = [] := by
    constructor
    · intro h; exact (h ▸ hperm).symm.eq_nil
    · intro h
      exact ((h ▸ hperm).eq_nil)
  refine ⟨hperm, hsorted, ?_, ?_, ?_, ?_⟩
  · rw [show l.lastEntry = l.entries.head? from rfl,
        List.head?_eq_none_iff]
    exact hnil
  · rw [show l.firstEntry = l.entries.getLast? from rfl,
        List.getLast?_eq_none_iff]
    exact hnil
  · intro e he
    have hmem : e ∈ l.entries := by
      cases hxs : l.entries with
      | nil => rw [show l.lastEntry = l.entries.head? from rfl, hxs] at he; cases he
      | cons a t =>
          rw [show l.lastEntry = l.entries.head? from rfl, hxs] at he
          have : a = e := by simpa using he
          subst this; exact List.mem_cons_self _ _
    refine ⟨hperm.mem_iff.mp hmem, ?_⟩
    intro x hx
    exact head_of_sorted_is_max l.entries hsorted e he x (hperm.mem_iff.mpr hx)
  · intro e he
    have hmem : e ∈ l.entries := by
      have : e ∈ l.entries.reverse := by
        cases hxs : l.entries.reverse with
        | nil =>
            have := List.head?_reverse l.entries
            rw [hxs] at this
            rw [show l.firstEntry = l.entries.getLast? from rfl, ← this] at he
            cases he
        | cons a t =>
            have hh := List.head?_reverse l.entries
            rw [hxs] at hh
            rw [show l.firstEntry = l.entries.getLast? from rfl, ← hh] at he
            have : a = e := by simpa using he
            subst this; exact List.mem_cons_self _ _
      exact List.mem_reverse.mp this
    refine ⟨hperm.mem_iff.mp hmem, ?_⟩
    intro x hx
    exact getLast_of_sorted_is_min l.entries hsorted e he x (hperm.mem_iff.mpr hx)

/-- C10: for every entry e, field name k, and value v, after
e.set(k, v) the getter e.field(k) returns v, while e.field(k') for every
other field k' distinct from k, and the attributes id, author and
creationTime of e, are unchanged. -/
theorem set_field_frame (e : Entry) (k k' : String) (v : FieldValue)
    (h : k' ≠ k) :
    (e.set k v).field k = some v ∧
    (e.set k v).field k' = e.field k' ∧
    (e.set k v).id = e.id ∧
    (e.set k v).author = e.author ∧
    (e.set k v).creationTime = e.creationTime :=
  ⟨field_set_self e k v, field_set_other e k k' v h, rfl, rfl, rfl⟩

theorem set_field_frame_witness :
    (("Quantity" : String) ≠ "Title") ∧
    ((sampleEntry.set "Title" (FieldValue.text "Updated")).field "Title"
        = some (FieldValue.text "Updated") ∧
      (sampleEntry.set "Title" (FieldValue.text "Updated")).field "Quantity"
        = sampleEntry.field "Quantity" ∧
      (sampleEntry.set "Title" (FieldValue.text "Updated")).id
        = sampleEntry.id ∧
      (sampleEntry.set "Title" (FieldValue.text "Updated")).author
        = sampleEntry.author ∧
      (sampleEntry.set "Title" (FieldValue.text "Updated")).creationTime
        = sampleEntry.creationTime) :=
  ⟨by decide,
   set_field_frame sampleEntry "Title" "Quantity"
     (FieldValue.text "Updated") (by decide)⟩

/-- C2: for every entry conforming to its library's field schema and
every valid field name, field(name) returns a value of the type declared
for that field's kind: string for text fields, number for number fields,
ISO date string for date fields, boolean for checkbox fields, array of
strings for multiple-choice fields, array of linked entries for Link to
Entry fields, array of file path strings for Link to File fields, and
array of image objects for image fields. -/
theorem field_returns_declared_kind (schema : FieldSchema) (e : Entry)
    (hwt : WellTypedEntry schema e) (k : String) (v : FieldValue)
    (kd : FieldKind) (hfield : e.field k = some v)
    (hdecl : List.lookup k schema = some kd) :
    v.kind = kd ∧
    (kd = .text → ∃ s, v = .text s) ∧
    (kd = .number → ∃ n, v = .number n) ∧
    (kd = .date → ∃ s, v = .date s) ∧
    (kd = .checkbox → ∃ b, v = .checkbox b) ∧
    (kd = .choices → ∃ items, v = .choices items) ∧
    (kd = .links → ∃ entryIds, v = .links entryIds) ∧
    (kd = .files → ∃ paths, v = .files paths) ∧
    (kd = .images → ∃ imgs, v = .images imgs) := by
  obtain ⟨p0, hfind, hsnd⟩ :
      ∃ p0, e.fields.find? (fun p => p.1 = k) = some p0 ∧ p0.2 = v := by
    cases hf : e.fields.find? (fun p => p.1 = k) with
    | none => simp [Entry.field, hf] at hfield
    | some p0 =>
        refine ⟨p0, rfl, ?_⟩
        simpa [Entry.field, hf] using hfield
  have hk0 : p0.1 = k := by simpa using List.find?_some hfind
  have hmem : p0 ∈ e.fields := List.mem_of_find?_eq_some hfind
  have hlook := hwt p0 hmem
  rw [hk0, hsnd] at hlook
  have hvk : v.kind = kd := by
    rw [hlook] at hdecl
    exact Option.some.inj hdecl
  subst hvk
  cases v <;> simp [FieldValue.kind]

theorem field_returns_declared_kind_witness :
    (FieldValue.text "Review").kind = FieldKind.text ∧
    (FieldKind.text = .text → ∃ s, FieldValue.text "Review" = .text s) ∧
    (FieldKind.text = .number → ∃ n, FieldValue.text "Review" = .number n) ∧
    (FieldKind.text = .date → ∃ s, FieldValue.text "Review" = .date s) ∧
    (FieldKind.text = .checkbox →
      ∃ b, FieldValue.text "Review" = .checkbox b) ∧
    (FieldKind.text = .choices →
      ∃ items, FieldValue.text "Review" = .choices items) ∧
    (FieldKind.text = .links →
      ∃ entryIds, FieldValue.text "Review" = .links entryIds) ∧
    (FieldKind.text = .files →
      ∃ paths, FieldValue.text "Review" = .files paths) ∧
    (FieldKind.text = .images →
      ∃ imgs, FieldValue.text "Review" = .images imgs) :=
  field_returns_declared_kind sampleSchema sampleEntry (by decide) "Title"
    (FieldValue.text "Review") FieldKind.text (by decide) (by decide)

/-- C3: library lookups that fail return null rather than raising a
fault: libByName and libById return a Library handle when the library is
found and accessible, and null when it is not found or inaccessible;
lib() always returns the current event's library; in particular, on a
host with no library named nonexistent, libByName of nonexistent is
null. -/
theorem lib_lookup_null_semantics (h : Host) (name id : String) :
    (lib h = h.current) ∧
    ((∀ r ∈ h.records, r.library.name ≠ name) → libByName h name = none) ∧
    (∀ r, h.records.find? (fun r => r.library.name = name) = some r →
        (r.accessible = true → libByName h name = some r.library) ∧
        (r.accessible = false → libByName h name = none)) ∧
    ((∀ r ∈ h.records, r.library.id ≠ id) → libById h id = none) ∧
    (∀ r, h.records.find? (fun r => r.library.id = id) = some r →
        (r.accessible = true → libById h id = some r.library) ∧
        (r.accessible = false → libById h id = none)) ∧
    (libByName sampleHost "nonexistent" = none) := by
  refine ⟨rfl, ?_, ?_, ?_, ?_, by decide⟩
  · intro hnone
    have hfind : h.records.find? (fun r => r.library.name = name) = none := by
      rw [List.find?_eq_none]
      intro r hr
      simpa using hnone r hr
    simp [libByName, hfind]
  · intro r hfind
    constructor
    · intro hacc; simp [libByName, hfind, hacc]
    · intro hacc; simp [libByName, hfind, hacc]
  · intro hnone
    have hfind : h.records.find? (fun r => r.library.id = id) = none := by
      rw [List.find?_eq_none]
      intro r hr
      simpa using hnone r hr
    simp [libById, hfind]
  · intro r hfind
    constructor
    · intro hacc; simp [libById, hfind, hacc]
    · intro hacc; simp [libById, hfind, hacc]

theorem applyEntryOp_id (op : EntryOp) (e : Entry) :
    (applyEntryOp op e).id = e.id := by
  cases op with
  | set k v => rfl
  | link k t =>
      show (e.link k t).id = e.id
      unfold Entry.link
      split <;> rfl
  | unlink k t =>
      show (e.unlink k t).id = e.id
      unfold Entry.unlink
      split <;> rfl
  | trash => rfl
  | untrash => rfl

/-- C5: entries are only ever soft-deleted: trash() sets the deleted
attribute to true, untrash() sets it back to false, and no in-scope
operation removes an entry from its library's entry set: every entry id
present before an operation is still present after it. -/
theorem soft_delete_invariant (e : Entry) (op : LibOp) (l : Library)
    (i : String) (hmem : i ∈ l.entryIds) :
    (e.trash).deleted = true ∧
    (e.untrash).deleted = false ∧
    ((e.trash).untrash).deleted = false ∧
    i ∈ (applyLibOp op l).entryIds := by
  refine ⟨rfl, rfl, rfl, ?_⟩
  cases op with
  | create newId author now values =>
      exact List.mem_cons_of_mem _ hmem
  | onEntry entryId o =>
      have hids : (applyLibOp (.onEntry entryId o) l).entryIds = l.entryIds := by
        show ((l.entryList.map fun e =>
            if e.id = entryId then applyEntryOp o e else e).map Entry.id)
          = l.entryList.map Entry.id
        rw [List.map_map]
        refine List.map_congr_left ?_
        intro x _
        by_cases hx : x.id = entryId
        · simp [Function.comp, hx, applyEntryOp_id]
        · simp [Function.comp, hx]
      rw [hids]
      exact hmem

theorem soft_delete_invariant_witness :
    (("e1" : String) ∈ sampleLibraryWithEntry.entryIds) ∧
    ((sampleEntry.trash).deleted = true ∧
      (sampleEntry.untrash).deleted = false ∧
      ((sampleEntry.trash).untrash).deleted = false ∧
      ("e1" : String) ∈
        (applyLibOp (.onEntry "e1" .trash) sampleLibraryWithEntry).entryIds) :=
  ⟨by decide,
   soft_delete_invariant sampleEntry (.onEntry "e1" .trash)
     sampleLibraryWithEntry "e1" (by decide)⟩

/-- C6: for every layout node built by ui().layout(children), the
orientation is vertical by default, and calling horizontal() changes
only the orientation flag: the child list (elements and order) and every
other attribute of the node are unchanged. -/
theorem layout_horizontal_frame (children : List UINode) (l : UILayout) :
    (UIBuilder.layout children).tilt = Tilt.vertical ∧
    (UIBuilder.layout children).children = children ∧
    (l.horizontal).tilt = Tilt.horizontal ∧
    (l.horizontal).children = l.children ∧
    (l.horizontal).width = l.width ∧
    (l.horizontal).height = l.height ∧
    (l.horizontal).weight = l.weight ∧
    (l.horizontal).tag = l.tag :=
  ⟨rfl, rfl, rfl, rfl, rfl, rfl, rfl, rfl⟩

/-- C7: for every dialog built with dialog().positiveButton(label, cb)
and then shown, the callback cb is invoked exactly once when the
positive button's UI action fires, and is never invoked otherwise (zero
invocations if the action never fires), for every interaction
sequence. -/
theorem dialog_positive_callback_once (label : String) (cbId : Nat)
    (ret : Bool) (events : List UIEvent) :
    (runOpenDialog (dialog.positiveButton ⟨label, cbId, ret⟩) events).count
        cbId = (if positiveActionFires events then 1 else 0) ∧
    runOpenDialog (dialog.positiveButton ⟨label, cbId, ret⟩) events
      = (if positiveActionFires events then [cbId] else []) := by
  have hrun : runOpenDialog (dialog.positiveButton ⟨label, cbId, ret⟩) events
      = (if positiveActionFires events then [cbId] else []) := by
    induction events with
    | nil => simp [runOpenDialog, positiveActionFires]
    | cons ev rest ih =>
        cases ev with
        | dismissRequest => simp [runOpenDialog, positiveActionFires]
        | click k =>
            cases k with
            | positive =>
                simp [runOpenDialog, positiveActionFires,
                  DialogConfig.buttonFor, dialog, DialogConfig.positiveButton]
            | negative =>
                simpa [runOpenDialog, positiveActionFires,
                  DialogConfig.buttonFor, dialog,
                  DialogConfig.positiveButton] using ih
            | neutral =>
                simpa [runOpenDialog, positiveActionFires,
                  DialogConfig.buttonFor, dialog,
                  DialogConfig.positiveButton] using ih
  refine ⟨?_, hrun⟩
  rw [hrun]
  by_cases hf : positiveActionFires events <;> simp [hf]

/-- C8: dialog and notification builders are effect-free while being
configured and their accumulated state is consumed exactly once: a run
of chained setter calls emits no host effect and only transforms the
builder state, and the single show() call emits exactly one host effect
carrying the whole accumulated configuration. -/
theorem builder_setters_pure_show_atomic (c0 : DialogConfig)
    (ds : List DialogSetter) (n0 : NotificationConfig)
    (ns : List NotificationSetter) :
    (runDialogSteps c0 (ds.map DialogStep.setter)).2 = [] ∧
    (runDialogSteps c0 (ds.map DialogStep.setter)).1
      = ds.foldl applyDialogSetter c0 ∧
    (runDialogSteps c0 (ds.map DialogStep.setter ++ [DialogStep.show])).2
      = [HostEffect.showDialog (ds.foldl applyDialogSetter c0)] ∧
    (runNotificationSteps n0 (ns.map NotificationStep.setter)).2 = [] ∧
    (runNotificationSteps n0 (ns.map NotificationStep.setter)).1
      = ns.foldl applyNotificationSetter n0 ∧
    (runNotificationSteps n0
        (ns.map NotificationStep.setter ++ [NotificationStep.show])).2
      = [HostEffect.showNotification (ns.foldl applyNotificationSetter n0)] := by
  have hd : ∀ (ds : List DialogSetter) (c : DialogConfig),
      runDialogSteps c (ds.map DialogStep.setter)
        = (ds.foldl applyDialogSetter c, []) := by
    intro ds
    induction ds with
    | nil => intro c; rfl
    | cons s rest ih => intro c; simpa [runDialogSteps] using ih _
  have hds : ∀ (ds : List DialogSetter) (c : DialogConfig),
      runDialogSteps c (ds.map DialogStep.setter ++ [DialogStep.show])
        = (ds.foldl applyDialogSetter c,
            [HostEffect.showDialog (ds.foldl applyDialogSetter c)]) := by
    intro ds
    induction ds with
    | nil => intro c; rfl
    | cons s rest ih => intro c; simpa [runDialogSteps] using ih _
  have hn : ∀ (ns : List NotificationSetter) (c : NotificationConfig),
      runNotificationSteps c (ns.map NotificationStep.setter)
        = (ns.foldl applyNotificationSetter c, []) := by
    intro ns
    induction ns with
    | nil => intro c; rfl
    | cons s rest ih => intro c; simpa [runNotificationSteps] using ih _
  have hns : ∀ (ns : List NotificationSetter) (c : NotificationConfig),
      runNotificationSteps c (ns.map NotificationStep.setter
          ++ [NotificationStep.show])
        = (ns.foldl applyNotificationSetter c,
            [HostEffect.showNotification (ns.foldl applyNotificationSetter c)]) := by
    intro ns
    induction ns with
    | nil => intro c; rfl
    | cons s rest ih => intro c; simpa [runNotificationSteps] using ih _
  exact ⟨by rw [hd], by rw [hd], by rw [hds], by rw [hn], by rw [hn],
    by rw [hns]⟩

theorem applyEdits_spec (s : EditSession)
    (mods : List (String × FieldValue)) :
    applyEdits s mods
      = { stored := s.stored
          clone := mods.foldl (fun acc kv => acc.set kv.1 kv.2) s.clone } := by
  induction mods generalizing s with
  | nil => rfl
  | cons kv rest ih =>
      cases kv with
      | mk k v => simp [applyEdits, EditSession.setField, ih]

/-- C9: entry() returns a clone of the event's actual entry, and
committing is atomic with respect to cancellation: modifications made
through set on the clone become visible in the stored entry only on
save, while after cancel() the stored entry is completely unchanged and
every modification made to the clone is discarded. -/
theorem entry_clone_commit_cancel (e : Entry)
    (mods : List (String × FieldValue)) :
    (beginEdit e).entry = e ∧
    (applyEdits (beginEdit e) mods).stored = e ∧
    (applyEdits (beginEdit e) mods).cancel = e ∧
    (applyEdits (beginEdit e) mods).save
      = mods.foldl (fun acc kv => acc.set kv.1 kv.2) e := by
  rw [applyEdits_spec]
  exact ⟨rfl, rfl, rfl, rfl⟩

end Memento
